import Mathlib

/-!
Verification of the maildeck webmail backend (src/api/index.js).

The development shallowly embeds the core logic of the server:
the mailbox materialization pipeline (`getEmailsFromS3`), the send
pipeline (`POST /send-email`), the folder transition engine
(`POST /emails/move-to-trash`, `POST /emails/delete-permanently`) and
attachment retrieval (`GET /download-attachment`).

External collaborators (the S3 object store, the SES transmission
service, and the mailparser library) are modelled as explicit inputs:
the store as an association list of key/value pairs or as fallible
function parameters, a parsed message as a `ParsedEmail` record holding
the fields the server reads from mailparser's output.  JavaScript
machine behaviour that the code relies on is embedded explicitly:
`x || y` string defaulting as `jsOr`, `Array.prototype.sort` (stable,
comparator `new Date(b.LastModified) - new Date(a.LastModified)`) as a
stable insertion sort on the last-modified timestamp, `Promise.all`
(reject on any rejection) as `promiseAll`, and the regex replacement
chain used for snippet derivation as recursive character-list functions.
Timestamps are modelled as `Nat` (milliseconds since epoch), bytes as
`String`.
-/

/-! ## S3 listing data (one entry of `listRes.Contents`) -/

/-- One object entry returned by `ListObjectsV2` (`Key`, `Size`,
`LastModified`); `lastModified` is the timestamp in milliseconds. -/
structure S3Object where
  key : String
  size : Nat
  lastModified : Nat
deriving DecidableEq, Repr

/-! ## Parsed message model (the fields the server reads from
`simpleParser`'s result) -/

/-- One attachment as exposed by mailparser: `filename`, `size`,
`contentType` and the decoded `content` bytes. -/
structure AttachmentData where
  filename : String
  size : Nat
  contentType : String
  content : String
deriving DecidableEq, Repr

/-- The fields of mailparser's parsed message that the server reads.
`headers` holds the raw header name/value pairs of the message; `none`
models a JavaScript `undefined` field. -/
structure ParsedEmail where
  headers : List (String × String)
  fromText : Option String
  toText : Option String
  subject : Option String
  date : Option Nat
  text : Option String
  html : Option String
  textAsHtml : Option String
  attachments : List AttachmentData
deriving DecidableEq, Repr

/-- JavaScript `x || y` on a string-or-undefined `x`: the empty string
and `undefined` are falsy, any other string is truthy. -/
def jsOr (a : Option String) (b : String) : String :=
  match a with
  | some s => if s == "" then b else s
  | none => b

/-- Lowercase one ASCII letter (other characters unchanged). -/
def lowerChar (c : Char) : Char :=
  if 'A' ≤ c && c ≤ 'Z' then Char.ofNat (c.toNat + 32) else c

/-- ASCII-lowercase a string. -/
def lowerStr (s : String) : String := ⟨s.data.map lowerChar⟩

/-- mailparser stores header keys lowercased, so
`parsed.headers.get(name)` with a lowercase `name` finds a header
whatever the case it was written in: modelled as a lookup comparing the
lowercased stored name against `name`. -/
def headersGet (hs : List (String × String)) (name : String) : Option String :=
  (hs.find? (fun h => lowerStr h.1 == name)).map (fun h => h.2)

/-! ## Snippet derivation
`parsed.html.replace(/<style[^>]*>.*<\/style>/gms, '')
            .replace(/<script[^>]*>.*<\/script>/gms, '')
            .replace(/<[^>]*>/g, ' ').replace(/\s+/g, ' ').trim()`
embedded as character-list functions.  Note the regex flags are `gms`:
matching is case-SENSITIVE and `.` spans lines (`s`), and `.*` is
greedy, so one block replacement removes from the first opening tag
through the last closing tag. -/

/-- Does `l` start with the pattern `p`? -/
def startsWithChars : List Char → List Char → Bool
  | [], _ => true
  | _ :: _, [] => false
  | p :: ps, c :: cs => p == c && startsWithChars ps cs

/-- Drop characters up to and including the first `>` (the `[^>]*>`
part of the tag regexes); `none` when no `>` remains. -/
def dropThroughGt : List Char → Option (List Char)
  | [] => none
  | c :: rest => if c == '>' then some rest else dropThroughGt rest

/-- The suffix following the LAST occurrence of `pat` (the greedy `.*`
of the block regexes backtracks to the last closing tag). -/
def afterLastOcc (pat : List Char) : List Char → Option (List Char)
  | [] => none
  | c :: rest =>
    match afterLastOcc pat rest with
    | some s => some s
    | none =>
      if startsWithChars pat (c :: rest) then some (List.drop pat.length (c :: rest))
      else none

/-- Global replacement of `<NAME[^>]*>.*</NAME>` by the empty string:
scan for the first position where the opening tag (`openPat` through
the first `>`) matches and a closing tag follows; greedily remove
through the last closing occurrence.  No closing tag can remain after
that point, so the tail is emitted unchanged. -/
def stripBlockGo (openPat closePat : List Char) : List Char → List Char
  | [] => []
  | c :: rest =>
    if startsWithChars openPat (c :: rest) then
      match dropThroughGt (List.drop openPat.length (c :: rest)) with
      | some afterOpen =>
        match afterLastOcc closePat afterOpen with
        | some tail => tail
        | none => c :: stripBlockGo openPat closePat rest
      | none => c :: stripBlockGo openPat closePat rest
    else c :: stripBlockGo openPat closePat rest

/-- `.replace(/<style[^>]*>.*<\/style>/gms, '')`. -/
def stripStyleBlocks (s : String) : String :=
  ⟨stripBlockGo "<style".data "</style>".data s.data⟩

/-- `.replace(/<script[^>]*>.*<\/script>/gms, '')`. -/
def stripScriptBlocks (s : String) : String :=
  ⟨stripBlockGo "<script".data "</script>".data s.data⟩

/-- `.replace(/<[^>]*>/g, ' ')`: each `<` with a later `>` opens a tag
replaced by one space; a `<` never followed by `>` stays literal (the
regex cannot match there, nor at any later position).  The fuel starts
at the list length and every step consumes at least one character, so
the `0` case is unreachable; it keeps the recursion structural. -/
def stripTagsGo : Nat → List Char → List Char
  | 0, l => l
  | _ + 1, [] => []
  | fuel + 1, c :: rest =>
    if c == '<' then
      match dropThroughGt rest with
      | some tail => ' ' :: stripTagsGo fuel tail
      | none => c :: stripTagsGo fuel rest
    else c :: stripTagsGo fuel rest

def stripTags (s : String) : String := ⟨stripTagsGo s.data.length s.data⟩

/-- The character class `\s` of JavaScript regexes (also the character
set trimmed by `String.prototype.trim`). -/
def isJsWs (c : Char) : Bool :=
  c = ' ' || c = '\t' || c = '\n' || c = '\r' || c = '\x0b' || c = '\x0c' ||
  c = '\u00A0' || c = '\u1680' || ('\u2000' ≤ c && c ≤ '\u200A') ||
  c = '\u2028' || c = '\u2029' || c = '\u202F' || c = '\u205F' ||
  c = '\u3000' || c = '\uFEFF'

/-- `.replace(/\s+/g, ' ')`: collapse each whitespace run to a single
space.  Fuel as in `stripTagsGo`. -/
def collapseWsGo : Nat → List Char → List Char
  | 0, l => l
  | _ + 1, [] => []
  | fuel + 1, c :: rest =>
    if isJsWs c then ' ' :: collapseWsGo fuel (rest.dropWhile isJsWs)
    else c :: collapseWsGo fuel rest

def collapseWs (s : String) : String := ⟨collapseWsGo s.data.length s.data⟩

/-- JavaScript `String.prototype.trim`. -/
def trimJs (s : String) : String :=
  ⟨((s.data.dropWhile isJsWs).reverse.dropWhile isJsWs).reverse⟩

/-- The HTML-to-text fallback used for the snippet, in source order:
strip style blocks, strip script blocks, strip remaining tags to
spaces, collapse whitespace, trim. -/
def htmlToText (h : String) : String :=
  trimJs (collapseWs (stripTags (stripScriptBlocks (stripStyleBlocks h))))

/-- `let textSnippet = parsed.text || '';
if (!textSnippet && parsed.html) textSnippet = <derived from HTML>`. -/
def snippetSource (p : ParsedEmail) : String :=
  let t := jsOr p.text ""
  if t == "" then
    match p.html with
    | some h => if h == "" then t else htmlToText h
    | none => t
  else t

/-- JavaScript `s.substring(0, n)` (UTF-16 code units modelled as
characters). -/
def jsSubstring (s : String) (n : Nat) : String := ⟨s.data.take n⟩

/-! ## The per-message summary built by `getEmailsFromS3` -/

/-- One entry of the `attachments` array of the summary:
`{filename, size, index}`. -/
structure AttachmentInfo where
  filename : String
  size : Nat
  index : Nat
deriving DecidableEq, Repr

/-- The JSON object built for each message by `getEmailsFromS3`
(`fromAddr`/`toAddr` stand for the source's `from`/`to` fields). -/
structure EmailSummary where
  id : String
  fromAddr : String
  toAddr : String
  sender : String
  subject : String
  date : Nat
  snippet : String
  htmlBody : String
  hasAttachments : Bool
  attachments : List AttachmentInfo
deriving DecidableEq, Repr

/-- `attachments.map((a, index) => ({filename: a.filename, size: a.size, index}))`. -/
def attachmentInfos (atts : List AttachmentData) : List AttachmentInfo :=
  atts.enum.map (fun p => { filename := p.2.filename, size := p.2.size, index := p.1 })

/-- `sender: parsed.headers.get('x-maildeck-sender') || parsed.from?.text || ""`. -/
def senderOf (p : ParsedEmail) : String :=
  jsOr (headersGet p.headers "x-maildeck-sender") (jsOr p.fromText "")

/-- The summary object returned for object `o` parsed as `p`
(the object literal at the end of `getEmailsFromS3`'s map callback). -/
def emailView (o : S3Object) (p : ParsedEmail) : EmailSummary :=
  { id := o.key
  , fromAddr := jsOr p.fromText ""
  , toAddr := jsOr p.toText ""
  , sender := senderOf p
  , subject := jsOr p.subject "(no subject)"
  , date := p.date.getD o.lastModified
  , snippet := jsSubstring (snippetSource p) 200
  , htmlBody := jsOr p.html (jsOr p.textAsHtml "")
  , hasAttachments := decide (0 < p.attachments.length)
  , attachments := attachmentInfos p.attachments }

/-! ## Listing selection:
`(listRes.Contents || []).filter(obj => obj.Key !== prefix && obj.Size > 0)
  .sort((a, b) => new Date(b.LastModified) - new Date(a.LastModified))
  .slice(0, 100)` -/

/-- Insert into a list sorted by descending `lastModified`; an element
passes `b` only when strictly more recent, so equal timestamps keep
their relative order (`Array.prototype.sort` is stable). -/
def insertByLastModifiedDesc (o : S3Object) : List S3Object → List S3Object
  | [] => [o]
  | b :: bs =>
    if o.lastModified < b.lastModified then b :: insertByLastModifiedDesc o bs
    else o :: b :: bs

/-- `Array.prototype.sort` with comparator
`(a, b) => new Date(b.LastModified) - new Date(a.LastModified)`:
a stable sort by descending `lastModified`, modelled as stable
insertion sort. -/
def sortByLastModifiedDesc : List S3Object → List S3Object
  | [] => []
  | a :: as => insertByLastModifiedDesc a (sortByLastModifiedDesc as)

/-- The filter/sort/slice selection stage of `getEmailsFromS3`.  `pfx`
is the folder key-prefix and `contents` models `listRes.Contents` (for
the inbox the listing is issued with `Delimiter: '/'`, which already
leaves sub-folder keys out of `Contents`; that is the store's side and
is reflected in the `contents` given to this function). -/
def selectObjects (pfx : String) (contents : List S3Object) : List S3Object :=
  List.take 100
    (sortByLastModifiedDesc
      (contents.filter (fun o => o.key != pfx && decide (0 < o.size))))

/-! ## Fetch-and-parse fan-out -/

/-- `Promise.all` over fallible computations: any rejection rejects the
whole combination, otherwise the results are collected in input
order. -/
def promiseAll {α β : Type} (f : α → Except String β) : List α → Except String (List β)
  | [] => .ok []
  | a :: as =>
    match f a with
    | .error e => .error e
    | .ok b =>
      match promiseAll f as with
      | .error e => .error e
      | .ok bs => .ok (b :: bs)

/-- The mailbox view `{ emails, totalCount }` returned to the route
handlers. -/
structure MailboxView where
  emails : List EmailSummary
  totalCount : Nat
deriving DecidableEq, Repr

/-- `getEmailsFromS3(prefix)`: select objects, then fetch and parse
each selected object concurrently (`fetchAndParse` models the
`GetObjectCommand` + `streamToString` + `simpleParser` composite for
one key) and build the summary list.  The source computes
`totalCount = objects.length` before the fan-out; the value is the
same. -/
def getEmailsFromS3 (pfx : String) (contents : List S3Object)
    (fetchAndParse : String → Except String ParsedEmail) : Except String MailboxView :=
  match
    promiseAll
      (fun o =>
        match fetchAndParse o.key with
        | .error e => .error e
        | .ok parsed => .ok (emailView o parsed))
      (selectObjects pfx contents) with
  | .error e => .error e
  | .ok emails => .ok { emails := emails, totalCount := (selectObjects pfx contents).length }

/-! ## Generic API response shape of the route handlers -/

/-- The HTTP responses the handlers produce: `ok` carries the JSON
body, the error constructors carry the `message` (and for 500s the
`detail`) strings sent by the source. -/
inductive ApiResponse (α : Type) where
  | ok (body : α)
  | badRequest (message : String)
  | forbidden (message : String)
  | notFound (message : String)
  | serverError (message detail : String)
deriving DecidableEq, Repr

/-! ## Send pipeline (`POST /send-email`) -/

/-- The hardcoded verified-sender list returned by
`getVerifiedSenders()` (the dynamic SES lookup is commented out in the
source). -/
def getVerifiedSenders : List String :=
  ["admin@oodac.com", "feeback-spinfinity@oodac.com"]

/-- The request body fields `{ from, to, cc, bcc, subject, html }`
(`fromAddr`/`toAddr` stand for `from`/`to`; an absent field is the
empty string, matching JavaScript falsiness of `undefined` and `""`
under the `!from` checks). -/
structure SendBody where
  fromAddr : String
  toAddr : String
  cc : String
  bcc : String
  subject : String
  html : String
deriving DecidableEq, Repr

/-- One uploaded attachment from `req.files`; `contentBase64` models
`file.buffer.toString('base64')`. -/
structure UploadedFile where
  originalname : String
  contentBase64 : String
  mimetype : String
deriving DecidableEq, Repr

/-- The raw MIME message assembled by the `/send-email` handler. -/
def buildRawEmail (b : SendBody) (files : List UploadedFile) : String :=
  let raw := "From: " ++ b.fromAddr ++ "\nTo: " ++ b.toAddr ++ "\n"
  let raw := if b.cc == "" then raw else raw ++ "Cc: " ++ b.cc ++ "\n"
  let raw := raw ++ "Subject: " ++ b.subject ++ "\n"
  let raw := raw ++ "X-MailDeck-Sender: " ++ b.fromAddr ++ "\n"
  let raw := raw ++ "MIME-Version: 1.0\n"
  let raw := raw ++ "Content-Type: multipart/mixed; boundary=\"boundary_12345\"\n\n"
  let raw := raw ++ "--boundary_12345\n"
  let raw := raw ++ "Content-Type: text/html; charset=UTF-8\n\n"
  let raw := raw ++ b.html ++ "\n\n"
  let raw := files.foldl
    (fun acc att =>
      acc ++ "--boundary_12345\n" ++
      "Content-Type: " ++ att.mimetype ++ "; name=\"" ++ att.originalname ++ "\"\n" ++
      "Content-Transfer-Encoding: base64\n" ++
      "Content-Disposition: attachment; filename=\"" ++ att.originalname ++ "\"\n\n" ++
      att.contentBase64 ++ "\n\n")
    raw
  raw ++ "--boundary_12345--"

/-- The success body `{ message: "Email sent", messageId }`. -/
structure SendSuccess where
  message : String
  messageId : String
deriving DecidableEq, Repr

/-- Externally visible calls the send handler makes, in order:
a dispatch through SES and a PutObject to the store.  An effect is
recorded when the call is attempted. -/
inductive SendEffect where
  | dispatched (raw : String)
  | putObject (key : String) (body : String)
deriving DecidableEq, Repr

/-- The `/send-email` handler: validate the fields, check the sender
allow-list, build the raw message, dispatch through SES (`sesSend`,
returning the provider `MessageId`), then persist the raw bytes under
`sent/<MessageId>` (`s3Put`).  Both external calls sit inside one
`try`/`catch`, whose handler answers
500 `"Failed to send email"` with the error detail. -/
def sendEmailHandler (allowedSenders : List String) (b : SendBody)
    (files : List UploadedFile)
    (sesSend : String → Except String String)
    (s3Put : String → String → Except String Unit) :
    ApiResponse SendSuccess × List SendEffect :=
  if b.fromAddr == "" || b.toAddr == "" || b.subject == "" || b.html == "" then
    (.badRequest "Missing required fields", [])
  else if !(allowedSenders.contains b.fromAddr) then
    (.forbidden ("Sending from " ++ b.fromAddr ++ " is not permitted or verified."), [])
  else
    match sesSend (buildRawEmail b files) with
    | .error e =>
        (.serverError "Failed to send email" e,
         [.dispatched (buildRawEmail b files)])
    | .ok mid =>
        match s3Put ("sent/" ++ mid) (buildRawEmail b files) with
        | .error e =>
            (.serverError "Failed to send email" e,
             [.dispatched (buildRawEmail b files),
              .putObject ("sent/" ++ mid) (buildRawEmail b files)])
        | .ok _ =>
            (.ok { message := "Email sent", messageId := mid },
             [.dispatched (buildRawEmail b files),
              .putObject ("sent/" ++ mid) (buildRawEmail b files)])

/-! ## Folder transition engine -/

/-- The object store as an association list key ↦ bytes (first binding
wins on lookup). -/
abbrev Store := List (String × String)

/-- `GetObject`-style lookup. -/
def storeGet (s : Store) (k : String) : Option String :=
  (s.find? (fun e => e.1 == k)).map (fun e => e.2)

/-- `PutObject`: bind `k` to `v` (shadowing any previous binding). -/
def storePut (s : Store) (k v : String) : Store := (k, v) :: s

/-- `DeleteObject`: remove every binding of `k` (S3 delete succeeds
whether or not the key exists). -/
def s3DeleteObject (s : Store) (k : String) : Store :=
  s.filter (fun e => e.1 != k)

/-- `CopyObject`: read the source key and write its bytes under the
destination key.  Fails when the source does not exist, and — as AWS
S3 does for a `CopyObjectCommand` that carries no metadata, storage
class or encryption change, which is how the handler issues it — fails
with 400 `InvalidRequest` when the destination coincides with the
source (a copy of an object onto itself). -/
def s3CopyObject (s : Store) (src dst : String) : Except String Store :=
  match storeGet s src with
  | none => .error "NoSuchKey"
  | some v =>
    if dst == src then .error "InvalidRequest"
    else .ok (storePut s dst v)

/-- Node `path.basename` (POSIX): drop trailing separators, then keep
the characters after the last remaining separator. -/
def basenameAux (l : List Char) : List Char :=
  (((l.reverse.dropWhile (fun c => c == '/')).takeWhile (fun c => c != '/')).reverse)

def basename (s : String) : String := ⟨basenameAux s.data⟩

/-- The loop of the `/emails/move-to-trash` handler: for each id in
order, copy the object to `trash/` + `path.basename(id)` and then
delete the original key.  The first failing step aborts the loop with
the store as it stood (the route catches the error and answers 500);
an error-free run returns the final store paired with `none`. -/
def moveToTrashKeys : Store → List String → Store × Option String
  | s, [] => (s, none)
  | s, id :: rest =>
    match s3CopyObject s id ("trash/" ++ basename id) with
    | .error e => (s, some e)
    | .ok s1 => moveToTrashKeys (s3DeleteObject s1 id) rest

/-! ## Permanent delete (`POST /emails/delete-permanently`) -/

/-- The response of a `DeleteObjects` batch call as S3 reports it:
per-key outcomes, with `errors` naming each key that failed.  A batch
with partial failures still resolves successfully at the HTTP level. -/
structure DeleteObjectsOutcome where
  deleted : List String
  errors : List (String × String)
deriving DecidableEq, Repr

/-- The `/emails/delete-permanently` handler: validate the id list,
issue one batch delete, and — whenever the call itself resolves —
answer full success, without inspecting the per-key outcome the store
reported. -/
def deletePermanentlyHandler (emailIds : Option (List String))
    (s3DeleteObjects : List String → Except String DeleteObjectsOutcome) :
    ApiResponse String :=
  match emailIds with
  | none => .badRequest "No email IDs provided"
  | some ids =>
    if ids.isEmpty then .badRequest "No email IDs provided"
    else
      match s3DeleteObjects ids with
      | .error e => .serverError "Failed to permanently delete emails" e
      | .ok _ => .ok ("Permanently deleted " ++ toString ids.length ++ " email(s).")

/-! ## Attachment retrieval (`GET /download-attachment`) -/

/-- The binary response body: filename, content type and bytes. -/
structure AttachmentFile where
  filename : String
  contentType : String
  content : String
deriving DecidableEq, Repr

/-- The `/download-attachment` handler: `none` models an absent query
parameter (and the empty `emailId` string is falsy under `!emailId`).
`s3GetAndParse` models the `GetObjectCommand` + `streamToString` +
`simpleParser` composite.  `parsed.attachments[index]` being
`undefined` yields 404 before any byte is written. -/
def downloadAttachmentHandler (emailId : Option String) (index : Option Nat)
    (s3GetAndParse : String → Except String ParsedEmail) :
    ApiResponse AttachmentFile :=
  match emailId, index with
  | none, _ => .badRequest "Missing email ID or attachment index."
  | some _, none => .badRequest "Missing email ID or attachment index."
  | some id, some i =>
    if id == "" then .badRequest "Missing email ID or attachment index."
    else
      match s3GetAndParse id with
      | .error _ => .serverError "Could not download attachment." ""
      | .ok parsed =>
        match parsed.attachments[i]? with
        | none => .notFound "Attachment not found at that index."
        | some a =>
            .ok { filename := a.filename, contentType := a.contentType, content := a.content }

/-! ## Concrete fixtures used by witnesses and counterexamples -/

/-- A listing entry for key `a.eml`, 10 bytes, most recent. -/
def demoObjA : S3Object := { key := "a.eml", size := 10, lastModified := 200 }

/-- A listing entry for key `b.eml`, 10 bytes, older. -/
def demoObjB : S3Object := { key := "b.eml", size := 10, lastModified := 100 }

/-- A plain parsed message with a text body and no attachments. -/
def demoParsedPlain : ParsedEmail :=
  { headers := []
  , fromText := some "alice@example.com"
  , toText := some "bob@example.com"
  , subject := some "Hi"
  , date := some 150
  , text := some "hi"
  , html := none
  , textAsHtml := none
  , attachments := [] }

/-- Fetch-and-parse that succeeds with `demoParsedPlain` except on key
`b.eml`, whose raw bytes fail to parse. -/
def demoFetchParse : String → Except String ParsedEmail :=
  fun k => if k == "b.eml" then .error "Invalid message" else .ok demoParsedPlain

/-- The mailbox view produced for a listing containing only
`demoObjA`. -/
def demoViewA : MailboxView :=
  { emails := [emailView demoObjA demoParsedPlain], totalCount := 1 }

/-- A message with no text body and the claim's HTML body (the braces
of `.x{}` written as escapes). -/
def demoHtmlParsed : ParsedEmail :=
  { headers := []
  , fromText := some "alice@example.com"
  , toText := some "bob@example.com"
  , subject := some "Hi"
  , date := some 150
  , text := none
  , html := some "<style>.x\x7b\x7d</style><p>Hello&nbsp;World</p>"
  , textAsHtml := none
  , attachments := [] }

/-- A message carrying the custom trace header and an SES bounce
address as structural From. -/
def demoTraceParsed : ParsedEmail :=
  { headers := [("X-MailDeck-Sender", "a@x.com")]
  , fromText := some "ses-bounce@aws"
  , toText := none
  , subject := none
  , date := none
  , text := none
  , html := none
  , textAsHtml := none
  , attachments := [] }

/-- A message without the trace header. -/
def demoNoTraceParsed : ParsedEmail :=
  { headers := []
  , fromText := some "carol@example.com"
  , toText := none
  , subject := none
  , date := none
  , text := none
  , html := none
  , textAsHtml := none
  , attachments := [] }

/-- A fully valid send body whose sender is on the allow-list. -/
def demoGoodSend : SendBody :=
  { fromAddr := "admin@oodac.com", toAddr := "user@example.com"
  , cc := "", bcc := "", subject := "Hello", html := "<p>hi</p>" }

/-- A send body whose sender is not on the allow-list. -/
def demoBadSend : SendBody :=
  { fromAddr := "evil@attacker.example", toAddr := "user@example.com"
  , cc := "", bcc := "", subject := "Hello", html := "<p>hi</p>" }

/-- SES dispatch succeeding with provider message id `MID-1`. -/
def demoSesOk : String → Except String String := fun _ => .ok "MID-1"

/-- Store write that always fails. -/
def demoPutFail : String → String → Except String Unit :=
  fun _ _ => .error "AccessDenied"

/-- Store write that always succeeds. -/
def demoPutOk : String → String → Except String Unit := fun _ _ => .ok ()

/-- Batch delete resolving successfully while reporting that
`sent/mid2` failed and only `sent/mid1` was deleted. -/
def demoBatchDeletePartial : List String → Except String DeleteObjectsOutcome :=
  fun _ => .ok { deleted := ["sent/mid1"], errors := [("sent/mid2", "InternalError")] }

/-! # Theorems -/

/-! ## Sorting lemmas for the listing selection -/

theorem insertByLastModifiedDesc_perm (o : S3Object) (l : List S3Object) :
    List.Perm (insertByLastModifiedDesc o l) (o :: l) := by
  induction l with
  | nil => simp [insertByLastModifiedDesc]
  | cons b bs ih =>
    unfold insertByLastModifiedDesc
    split
    · exact (ih.cons b).trans (List.Perm.swap o b bs)
    · exact List.Perm.refl _

theorem sortByLastModifiedDesc_perm (l : List S3Object) :
    List.Perm (sortByLastModifiedDesc l) l := by
  induction l with
  | nil => exact List.Perm.refl _
  | cons a as ih =>
    exact (insertByLastModifiedDesc_perm a (sortByLastModifiedDesc as)).trans (ih.cons a)

theorem insertByLastModifiedDesc_pairwise (o : S3Object) (l : List S3Object)
    (h : l.Pairwise (fun a b => b.lastModified ≤ a.lastModified)) :
    (insertByLastModifiedDesc o l).Pairwise (fun a b => b.lastModified ≤ a.lastModified) := by
  induction l with
  | nil => simp [insertByLastModifiedDesc]
  | cons b bs ih =>
    rw [List.pairwise_cons] at h
    obtain ⟨hb, hs⟩ := h
    unfold insertByLastModifiedDesc
    split
    case isTrue hlt =>
      rw [List.pairwise_cons]
      refine ⟨?_, ih hs⟩
      intro y hy
      have hy' : y ∈ o :: bs := (insertByLastModifiedDesc_perm o bs).mem_iff.mp hy
      rcases List.mem_cons.mp hy' with hEq | hMem
      · subst hEq; exact Nat.le_of_lt hlt
      · exact hb y hMem
    case isFalse hge =>
      rw [List.pairwise_cons]
      refine ⟨?_, List.pairwise_cons.mpr ⟨hb, hs⟩⟩
      intro y hy
      rcases List.mem_cons.mp hy with hEq | hMem
      · subst hEq; exact Nat.le_of_not_lt hge
      · exact Nat.le_trans (hb y hMem) (Nat.le_of_not_lt hge)

theorem sortByLastModifiedDesc_pairwise (l : List S3Object) :
    (sortByLastModifiedDesc l).Pairwise (fun a b => b.lastModified ≤ a.lastModified) := by
  induction l with
  | nil => simp [sortByLastModifiedDesc]
  | cons a as ih => exact insertByLastModifiedDesc_pairwise a _ ih

theorem selectObjects_pairwise (pfx : String) (contents : List S3Object) :
    (selectObjects pfx contents).Pairwise (fun a b => b.lastModified ≤ a.lastModified) :=
  (sortByLastModifiedDesc_pairwise _).sublist (List.take_sublist _ _)

theorem selectObjects_length (pfx : String) (contents : List S3Object) :
    (selectObjects pfx contents).length =
      min 100 (contents.filter (fun o => o.key != pfx && decide (0 < o.size))).length := by
  unfold selectObjects
  rw [List.length_take, (sortByLastModifiedDesc_perm _).length_eq]

theorem selectObjects_all_kept (pfx : String) (contents : List S3Object) :
    (selectObjects pfx contents).all (fun o => o.key != pfx && decide (0 < o.size)) = true := by
  rw [List.all_eq_true]
  intro o ho
  have h1 : o ∈ sortByLastModifiedDesc
      (contents.filter (fun o => o.key != pfx && decide (0 < o.size))) :=
    (List.take_sublist _ _).subset ho
  have h2 : o ∈ contents.filter (fun o => o.key != pfx && decide (0 < o.size)) :=
    (sortByLastModifiedDesc_perm _).mem_iff.mp h1
  exact (List.mem_filter.mp h2).2

theorem promiseAll_ok_map_key (fetchAndParse : String → Except String ParsedEmail)
    (l : List S3Object) (ys : List EmailSummary)
    (h : promiseAll
        (fun o =>
          match fetchAndParse o.key with
          | .error e => .error e
          | .ok parsed => .ok (emailView o parsed)) l = .ok ys) :
    ys.map (fun e => e.id) = l.map (fun o => o.key) := by
  induction l generalizing ys with
  | nil =>
    simp only [promiseAll] at h
    cases h
    rfl
  | cons a as ih =>
    simp only [promiseAll] at h
    cases hfa : fetchAndParse a.key with
    | error e => rw [hfa] at h; cases h
    | ok p =>
      rw [hfa] at h
      cases hrest : promiseAll
          (fun o =>
            match fetchAndParse o.key with
            | .error e => .error e
            | .ok parsed => .ok (emailView o parsed)) as with
      | error e => rw [hrest] at h; cases h
      | ok bs =>
        rw [hrest] at h
        cases h
        show (emailView a p).id :: bs.map (fun e => e.id) = a.key :: as.map (fun o => o.key)
        rw [ih bs hrest]
        rfl

/-- C1: for every folder key-prefix, `getEmailsFromS3` returns a view
whose selected objects are sorted by descending last-modified
timestamp, whose email sequence follows that order key for key, has
length at most 100, keeps only objects that are neither the prefix
marker nor zero-byte, and whose `totalCount` is the count after
truncation to 100 — `min 100 (filtered length)`, not the true total
under the prefix. -/
theorem getEmailsFromS3_mailbox_invariants (pfx : String) (contents : List S3Object)
    (fetchAndParse : String → Except String ParsedEmail) (v : MailboxView)
    (h : getEmailsFromS3 pfx contents fetchAndParse = .ok v) :
    (selectObjects pfx contents).Pairwise (fun a b => b.lastModified ≤ a.lastModified) ∧
    v.emails.map (fun e => e.id) = (selectObjects pfx contents).map (fun o => o.key) ∧
    v.emails.length ≤ 100 ∧
    (selectObjects pfx contents).all (fun o => o.key != pfx && decide (0 < o.size)) = true ∧
    v.totalCount = v.emails.length ∧
    v.totalCount = min 100 (contents.filter (fun o => o.key != pfx && decide (0 < o.size))).length := by
  unfold getEmailsFromS3 at h
  cases hp : promiseAll
      (fun o =>
        match fetchAndParse o.key with
        | .error e => .error e
        | .ok parsed => .ok (emailView o parsed))
      (selectObjects pfx contents) with
  | error e => rw [hp] at h; cases h
  | ok emails =>
    rw [hp] at h
    cases h
    have hmap := promiseAll_ok_map_key fetchAndParse (selectObjects pfx contents) emails hp
    have hlen : emails.length = (selectObjects pfx contents).length := by
      have := congrArg List.length hmap
      simpa using this
    refine ⟨selectObjects_pairwise pfx contents, hmap, ?_, selectObjects_all_kept pfx contents, ?_, ?_⟩
    · rw [hlen, selectObjects_length]
      exact Nat.min_le_left _ _
    · exact hlen.symm
    · exact selectObjects_length pfx contents

/-- C1 witness: the invariants instantiated at a concrete one-object
listing. -/
theorem getEmailsFromS3_mailbox_invariants_witness :
    (selectObjects "" [demoObjA]).Pairwise (fun a b => b.lastModified ≤ a.lastModified) ∧
    demoViewA.emails.map (fun e => e.id) = (selectObjects "" [demoObjA]).map (fun o => o.key) ∧
    demoViewA.emails.length ≤ 100 ∧
    (selectObjects "" [demoObjA]).all (fun o => o.key != "" && decide (0 < o.size)) = true ∧
    demoViewA.totalCount = demoViewA.emails.length ∧
    demoViewA.totalCount =
      min 100 (([demoObjA]).filter (fun o => o.key != "" && decide (0 < o.size))).length :=
  getEmailsFromS3_mailbox_invariants "" [demoObjA] demoFetchParse demoViewA rfl

/-! ## Listing error propagation (C2) -/

/-- C2: a single object's fetch/parse failure aborts the whole
listing: over `[demoObjA, demoObjB]`, where only `b.eml` fails to
parse, `getEmailsFromS3` rejects with that object's error instead of
returning a view covering the remaining object — even though the same
listing without the bad object succeeds.  (`Promise.all` propagates
the rejection; nothing isolates it.) -/
theorem getEmailsFromS3_single_parse_failure_aborts :
    getEmailsFromS3 "" [demoObjA, demoObjB] demoFetchParse = .error "Invalid message" ∧
    getEmailsFromS3 "" [demoObjA] demoFetchParse = .ok demoViewA :=
  ⟨rfl, rfl⟩

/-! ## Permanent delete ignores per-key failures (C4) -/

/-- C4: with the store reporting that `sent/mid2` failed while only
`sent/mid1` was deleted, the `/emails/delete-permanently` handler still
answers unconditional full success
`"Permanently deleted 2 email(s)."` — the per-key outcome the store
reported is never inspected. -/
theorem deletePermanently_ignores_store_reported_errors :
    deletePermanentlyHandler (some ["sent/mid1", "sent/mid2"]) demoBatchDeletePartial =
      .ok "Permanently deleted 2 email(s)." ∧
    demoBatchDeletePartial ["sent/mid1", "sent/mid2"] =
      .ok { deleted := ["sent/mid1"], errors := [("sent/mid2", "InternalError")] } :=
  ⟨rfl, rfl⟩

/-! ## Send pipeline theorems (C6, C3) -/

/-- C6: a send request with all of from/to/subject/html non-empty but
a `from` outside the allow-list is answered 403; no SES dispatch and
no store write is attempted (the effect trace is empty). -/
theorem sendEmail_rejects_unverified_sender (allowedSenders : List String)
    (b : SendBody) (files : List UploadedFile)
    (sesSend : String → Except String String)
    (s3Put : String → String → Except String Unit)
    (hf : b.fromAddr ≠ "") (ht : b.toAddr ≠ "") (hs : b.subject ≠ "") (hh : b.html ≠ "")
    (hna : allowedSenders.contains b.fromAddr = false) :
    sendEmailHandler allowedSenders b files sesSend s3Put =
      (.forbidden ("Sending from " ++ b.fromAddr ++ " is not permitted or verified."), []) := by
  have hf' : (b.fromAddr == "") = false := beq_eq_false_iff_ne.mpr hf
  have ht' : (b.toAddr == "") = false := beq_eq_false_iff_ne.mpr ht
  have hs' : (b.subject == "") = false := beq_eq_false_iff_ne.mpr hs
  have hh' : (b.html == "") = false := beq_eq_false_iff_ne.mpr hh
  unfold sendEmailHandler
  rw [hf', ht', hs', hh', hna]
  rfl

/-- C6 witness: the rejection at a concrete request whose sender is
outside the hardcoded allow-list. -/
theorem sendEmail_rejects_unverified_sender_witness :
    sendEmailHandler getVerifiedSenders demoBadSend [] demoSesOk demoPutOk =
      (.forbidden ("Sending from " ++ demoBadSend.fromAddr ++ " is not permitted or verified."), []) :=
  sendEmail_rejects_unverified_sender getVerifiedSenders demoBadSend [] demoSesOk demoPutOk
    (by decide) (by decide) (by decide) (by decide) (by decide)

/-- C3 counterexample: with a valid allow-listed request, SES dispatch
succeeding with `MID-1`, and the `sent/` persistence failing, the
handler answers 500 `"Failed to send email"` — not the success
response with the provider message id that the claim asserts. -/
theorem sendEmail_persist_failure_counterexample :
    (sendEmailHandler getVerifiedSenders demoGoodSend [] demoSesOk demoPutFail).1 =
      .serverError "Failed to send email" "AccessDenied" ∧
    (sendEmailHandler getVerifiedSenders demoGoodSend [] demoSesOk demoPutFail).1 ≠
      .ok { message := "Email sent", messageId := "MID-1" } :=
  ⟨rfl, by decide⟩

/-- C3 amended: when the `sent/` persistence fails after a successful
dispatch, the send operation reports a send failure (500 with the
persistence error as detail) to the caller, even though the dispatch
already happened — both external calls appear in the effect trace. -/
theorem sendEmail_persist_failure_reports_error (allowedSenders : List String)
    (b : SendBody) (files : List UploadedFile)
    (sesSend : String → Except String String)
    (s3Put : String → String → Except String Unit) (mid err : String)
    (hf : b.fromAddr ≠ "") (ht : b.toAddr ≠ "") (hs : b.subject ≠ "") (hh : b.html ≠ "")
    (ha : allowedSenders.contains b.fromAddr = true)
    (hd : sesSend (buildRawEmail b files) = .ok mid)
    (hp : s3Put ("sent/" ++ mid) (buildRawEmail b files) = .error err) :
    sendEmailHandler allowedSenders b files sesSend s3Put =
      (.serverError "Failed to send email" err,
       [.dispatched (buildRawEmail b files),
        .putObject ("sent/" ++ mid) (buildRawEmail b files)]) := by
  have hf' : (b.fromAddr == "") = false := beq_eq_false_iff_ne.mpr hf
  have ht' : (b.toAddr == "") = false := beq_eq_false_iff_ne.mpr ht
  have hs' : (b.subject == "") = false := beq_eq_false_iff_ne.mpr hs
  have hh' : (b.html == "") = false := beq_eq_false_iff_ne.mpr hh
  unfold sendEmailHandler
  rw [hf', ht', hs', hh', ha, hd]
  simp [hp]

/-- C3 witness: the amended behaviour at a concrete request. -/
theorem sendEmail_persist_failure_reports_error_witness :
    sendEmailHandler getVerifiedSenders demoGoodSend [] demoSesOk demoPutFail =
      (.serverError "Failed to send email" "AccessDenied",
       [.dispatched (buildRawEmail demoGoodSend []),
        .putObject ("sent/" ++ "MID-1") (buildRawEmail demoGoodSend [])]) :=
  sendEmail_persist_failure_reports_error getVerifiedSenders demoGoodSend [] demoSesOk
    demoPutFail "MID-1" "AccessDenied"
    (by decide) (by decide) (by decide) (by decide) (by decide) rfl rfl

/-! ## Store lemmas for the folder transition engine -/

theorem storeGet_delete_self (s : Store) (k : String) :
    storeGet (s3DeleteObject s k) k = none := by
  induction s with
  | nil => rfl
  | cons e es ih =>
    unfold s3DeleteObject at ih ⊢
    rw [List.filter_cons]
    by_cases hek : e.1 = k
    · simp only [hek, bne_self_eq_false, cond_false, if_neg, Bool.false_eq_true,
        not_false_eq_true, if_false]
      exact ih
    · have hbne : (e.1 != k) = true := bne_iff_ne.mpr hek
      rw [hbne]
      simp only [if_true]
      unfold storeGet
      rw [List.find?_cons]
      have : (e.1 == k) = false := beq_eq_false_iff_ne.mpr hek
      rw [this]
      exact ih

theorem storeGet_delete_ne (s : Store) (k k' : String) (h : k' ≠ k) :
    storeGet (s3DeleteObject s k) k' = storeGet s k' := by
  induction s with
  | nil => rfl
  | cons e es ih =>
    unfold s3DeleteObject at ih ⊢
    rw [List.filter_cons]
    by_cases hek : e.1 = k
    · simp only [hek, bne_self_eq_false, Bool.false_eq_true, if_false]
      rw [ih]
      unfold storeGet
      rw [List.find?_cons]
      have : (e.1 == k') = false := beq_eq_false_iff_ne.mpr (by rw [hek]; exact (Ne.symm h))
      rw [this]
    · have hbne : (e.1 != k) = true := bne_iff_ne.mpr hek
      rw [hbne]
      simp only [if_true]
      unfold storeGet
      rw [List.find?_cons, List.find?_cons]
      by_cases hek' : e.1 = k'
      · have : (e.1 == k') = true := beq_iff_eq.mpr hek'
        rw [this]
      · have : (e.1 == k') = false := beq_eq_false_iff_ne.mpr hek'
        rw [this]
        exact ih

theorem storeGet_put_self (s : Store) (k v : String) :
    storeGet (storePut s k v) k = some v := by
  unfold storePut storeGet
  rw [List.find?_cons]
  rw [show (k == k) = true from beq_self_eq_true k]
  rfl

theorem dropWhile_of_head_false {p : Char → Bool} {l m : List Char} (hl : l ≠ [])
    (hfalse : ∀ c ∈ l, p c = false) :
    List.dropWhile p (l ++ m) = l ++ m := by
  cases l with
  | nil => exact absurd rfl hl
  | cons c cs =>
    rw [List.cons_append, List.dropWhile_cons, hfalse c (List.mem_cons_self c cs)]
    simp

theorem takeWhile_append_stop {q : Char → Bool} {l m : List Char} {c : Char}
    (hall : ∀ a ∈ l, q a = true) (hstop : q c = false) :
    List.takeWhile q (l ++ c :: m) = l := by
  induction l with
  | nil => simp [List.takeWhile_cons, hstop]
  | cons a as ih =>
    rw [List.cons_append, List.takeWhile_cons, hall a (List.mem_cons_self a as)]
    simp only [if_true]
    rw [ih (fun b hb => hall b (List.mem_cons_of_mem a hb))]

/-- For a non-empty, separator-free `x`, the basename of
`trash/ ++ x` is `x` itself. -/
theorem basename_trash_append (x : String) (hx : x ≠ "")
    (hsl : ∀ c ∈ x.data, c ≠ '/') :
    basename ("trash/" ++ x) = x := by
  obtain ⟨l⟩ := x
  have hl : l ≠ [] := by
    intro hnil
    subst hnil
    exact hx rfl
  have hlr : l.reverse ≠ [] := by simpa using hl
  have hno : ∀ c ∈ l.reverse, (c == '/') = false := by
    intro c hc
    exact beq_eq_false_iff_ne.mpr (hsl c (List.mem_reverse.mp hc))
  have hall : ∀ c ∈ l.reverse, (c != '/') = true := by
    intro c hc
    exact bne_iff_ne.mpr (hsl c (List.mem_reverse.mp hc))
  show basename ⟨"trash/".data ++ l⟩ = ⟨l⟩
  unfold basename basenameAux
  rw [List.reverse_append,
    show ("trash/".data).reverse = '/' :: ['h', 's', 'a', 'r', 't'] from rfl,
    dropWhile_of_head_false hlr hno,
    takeWhile_append_stop hall (by rfl),
    List.reverse_reverse]

/-- C5: for every key `k` on which `moveToTrash([k])` succeeds
(sequential copy-then-delete per id), the store afterwards has no
object at `k` and holds an object at `trash/ ++ basename k` with the
original bytes.  A key of the form `trash/x` is no exception: there
the destination coincides with the source, the store rejects the
self-copy with `InvalidRequest`, and the operation never succeeds —
success forces destination ≠ source. -/
theorem moveToTrash_moves_object_to_trash (s : Store) (k : String) (s' : Store)
    (h : moveToTrashKeys s [k] = (s', none)) :
    storeGet s' k = none ∧
    storeGet s' ("trash/" ++ basename k) = storeGet s k := by
  simp only [moveToTrashKeys, s3CopyObject] at h
  cases hget : storeGet s k with
  | none => rw [hget] at h; simp at h
  | some v =>
    rw [hget] at h
    by_cases hne : ("trash/" ++ basename k) = k
    · rw [beq_iff_eq.mpr hne] at h
      simp at h
    · rw [beq_eq_false_iff_ne.mpr hne] at h
      simp only [Bool.false_eq_true, if_false, moveToTrashKeys] at h
      cases h
      refine ⟨storeGet_delete_self _ _, ?_⟩
      rw [storeGet_delete_ne _ _ _ hne, storeGet_put_self]

/-- C5 witness: moving `inbox/key1` lands its bytes at `trash/key1`
and removes the original key. -/
theorem moveToTrash_moves_object_to_trash_witness :
    storeGet [("trash/key1", "b")] "inbox/key1" = none ∧
    storeGet [("trash/key1", "b")] ("trash/" ++ basename "inbox/key1") =
      storeGet [("inbox/key1", "b")] "inbox/key1" :=
  moveToTrash_moves_object_to_trash [("inbox/key1", "b")] "inbox/key1"
    [("trash/key1", "b")] rfl

/-- C10 counterexample: on the store holding `trash/x`, moving
`trash/x` to trash aborts with the store's `InvalidRequest` rejection
of the self-copy, leaving the store unchanged with the object still
present — the delete step never runs and the message is not lost. -/
theorem moveToTrash_self_copy_rejected_counterexample :
    moveToTrashKeys [("trash/x", "b")] ["trash/x"] =
      ([("trash/x", "b")], some "InvalidRequest") ∧
    storeGet [("trash/x", "b")] "trash/x" = some "b" :=
  ⟨rfl, rfl⟩

/-- C10 amended: for an id already of the form `trash/ ++ x` with `x`
non-empty and free of separators, the computed destination
`trash/ ++ basename id` equals the id itself, so the copy step targets
the source key and the store rejects the self-copy with 400
`InvalidRequest`: the loop aborts before the delete step with the
store unchanged — the message stays in trash (the route answers
500). -/
theorem moveToTrash_trash_key_self_copy_fails (x v : String) (s : Store)
    (hx : x ≠ "") (hsl : ∀ c ∈ x.data, c ≠ '/')
    (hget : storeGet s ("trash/" ++ x) = some v) :
    "trash/" ++ basename ("trash/" ++ x) = "trash/" ++ x ∧
    moveToTrashKeys s ["trash/" ++ x] = (s, some "InvalidRequest") := by
  have hb : basename ("trash/" ++ x) = x := basename_trash_append x hx hsl
  refine ⟨by rw [hb], ?_⟩
  simp only [moveToTrashKeys, s3CopyObject, hb, hget, beq_self_eq_true, if_true]

/-- C10 witness: the rejected self-copy at the concrete store holding
only `trash/x`. -/
theorem moveToTrash_trash_key_self_copy_fails_witness :
    "trash/" ++ basename ("trash/" ++ "x") = "trash/" ++ "x" ∧
    moveToTrashKeys [("trash/x", "b")] ["trash/" ++ "x"] =
      ([("trash/x", "b")], some "InvalidRequest") :=
  moveToTrash_trash_key_self_copy_fails "x" "b" [("trash/x", "b")]
    (by decide) (by decide) rfl

/-! ## Snippet derivation (C7) -/

/-- C7 counterexample: for the claim's own HTML body, the derived
snippet is `"Hello&nbsp;World"` — the replacement chain never decodes
HTML entities, so it is not the claimed `"Hello World"`. -/
theorem snippet_claim_counterexample :
    (emailView demoObjA demoHtmlParsed).snippet = "Hello&nbsp;World" ∧
    ("Hello&nbsp;World" : String) ≠ "Hello World" :=
  ⟨rfl, by decide⟩

/-- C7 amended: with no plain-text body and HTML body
`<style>.x{}</style><p>Hello&nbsp;World</p>`, the derived snippet
equals `"Hello&nbsp;World"`: lowercase style/script blocks are
stripped across lines (the regexes carry no `i` flag, so matching is
case-sensitive, and entities are not decoded), remaining tags become
spaces, whitespace runs collapse, the result is trimmed, and every
snippet is a hard cut of at most 200 characters. -/
theorem snippet_derivation_amended :
    (emailView demoObjA demoHtmlParsed).snippet = "Hello&nbsp;World" ∧
    ∀ (o : S3Object) (p : ParsedEmail), (emailView o p).snippet.length ≤ 200 := by
  refine ⟨rfl, ?_⟩
  intro o p
  show ((snippetSource p).data.take 200).length ≤ 200
  rw [List.length_take]
  exact Nat.min_le_left _ _

/-! ## Sender resolution (C8) -/

theorem jsOr_some_default_empty (v : String) : jsOr (some v) "" = v := by
  show (if v == "" then "" else v) = v
  split
  next h => exact (eq_of_beq h).symm
  next => rfl

/-- C8: the summary's sender prefers the custom trace header — a
message with header `X-MailDeck-Sender: a@x.com` and structural From
`ses-bounce@aws` yields sender `a@x.com` — and when the trace header
is absent the sender falls back to the From header value. -/
theorem sender_resolution_prefers_trace_header (o : S3Object) (p : ParsedEmail)
    (v : String)
    (habs : headersGet p.headers "x-maildeck-sender" = none)
    (hfrom : p.fromText = some v) :
    (emailView o p).sender = v ∧
    (emailView demoObjA demoTraceParsed).sender = "a@x.com" := by
  refine ⟨?_, rfl⟩
  show senderOf p = v
  unfold senderOf
  rw [habs, hfrom]
  show jsOr (some v) "" = v
  exact jsOr_some_default_empty v

/-- C8 witness: the fallback at a concrete message without the trace
header, alongside the trace-header preference. -/
theorem sender_resolution_prefers_trace_header_witness :
    (emailView demoObjA demoNoTraceParsed).sender = "carol@example.com" ∧
    (emailView demoObjA demoTraceParsed).sender = "a@x.com" :=
  sender_resolution_prefers_trace_header demoObjA demoNoTraceParsed
    "carol@example.com" rfl rfl

/-! ## Attachment retrieval (C9) -/

/-- C9: when the message parses to fewer attachments than the
requested index, `/download-attachment` answers 404
`"Attachment not found at that index."` — a response carrying no
attachment bytes, not even a partial stream. -/
theorem downloadAttachment_out_of_range_not_found (id : String) (i : Nat)
    (s3GetAndParse : String → Except String ParsedEmail) (parsed : ParsedEmail)
    (hid : id ≠ "")
    (hres : s3GetAndParse id = .ok parsed)
    (hi : parsed.attachments.length ≤ i) :
    downloadAttachmentHandler (some id) (some i) s3GetAndParse =
      .notFound "Attachment not found at that index." := by
  have hbeq : (id == "") = false := beq_eq_false_iff_ne.mpr hid
  simp only [downloadAttachmentHandler, hbeq, Bool.false_eq_true, if_false, hres,
    List.getElem?_eq_none hi]

/-- C9 witness: index 0 against a message with no attachments. -/
theorem downloadAttachment_out_of_range_not_found_witness :
    downloadAttachmentHandler (some "a.eml") (some 0) demoFetchParse =
      .notFound "Attachment not found at that index." :=
  downloadAttachment_out_of_range_not_found "a.eml" 0 demoFetchParse demoParsedPlain
    (by decide) rfl (by decide)
